import Mathlib

/-!
The github-project-notifier: a shallow embedding of `main.go`.

The decision pipeline of the notifier (resolve a project identifier, filter
the fetched items by status, render the notification) is embedded as pure
Lean functions over the decoded data.  Logging and the HTTP transport are
side effects outside the embedding; every function below starts from the
values the Go code holds after decoding.
-/

set_option autoImplicit false

namespace Notifier

/-! ## Data model -/

/-- A value decoded by `encoding/json` into `interface{}`: `nil`, `bool`,
`float64`, `string`, `[]interface{}` or `map[string]interface{}`.  The
numeric payload is never inspected by the program. -/
inductive JSONValue where
  | null
  | bool (b : Bool)
  | number (n : Int)
  | str (s : String)
  | arr (xs : List JSONValue)
  | obj (kvs : List (String × JSONValue))

/-- The anonymous `Field` struct of a `FieldValue`. -/
structure FieldRef where
  Name : String
  deriving DecidableEq

/-- Go `FieldValue`. -/
structure FieldValue where
  Field : FieldRef
  Name : String
  Text : String
  deriving DecidableEq

/-- The anonymous `FieldValues` struct of a `ProjectItem`. -/
structure FieldValueNodes where
  Nodes : List FieldValue

/-- Go `ProjectItem`. -/
structure ProjectItem where
  ID : String
  Content : JSONValue
  FieldValues : FieldValueNodes

/-- Go `Config`. -/
structure Config where
  GitHubToken : String
  ProjectID : String
  ProjectOwner : String
  ProjectNumber : Int
  ProjectViewNumber : Int
  MattermostURL : String
  TargetStatus : String
  StatusFieldName : String
  InsecureSkipVerify : Bool

/-- Go `Project`. -/
structure Project where
  ID : String
  Number : Int
  Title : String
  deriving DecidableEq

/-- The anonymous `ProjectsV2` struct of a `ProjectOwner`. -/
structure ProjectNodes where
  Nodes : List Project

/-- Go `ProjectOwner`. -/
structure ProjectOwner where
  ProjectsV2 : ProjectNodes

/-- One element of the `Errors` slice of a response. -/
structure GraphQLError where
  Message : String

/-- The anonymous `Data` struct of a `ProjectSearchResponse`; a nil pointer
is `none`. -/
structure SearchData where
  User : Option ProjectOwner
  Organization : Option ProjectOwner

/-- Go `ProjectSearchResponse`. -/
structure ProjectSearchResponse where
  Data : SearchData
  Errors : List GraphQLError

/-- One element of `MattermostMessage.Attachments`. -/
structure Attachment where
  Color : String
  Title : String
  Text : String
  deriving DecidableEq

/-- Go `MattermostMessage`. -/
structure MattermostMessage where
  Text : String
  Username : String
  IconEmoji : String
  Channel : String
  Attachments : List Attachment

/-- The verb `%d` of `fmt.Sprintf` applied to an `int`. -/
def fmtInt (n : Int) : String := toString n

/-! ## Status filter (`main.go` 439-452) -/

/-- The inner loop of `filterItemsByStatus`: walks the field values of
`item`; on the first one that satisfies the condition it appends `item` to
`filtered` and breaks. -/
def filterItemsByStatus.inner (item : ProjectItem) (targetStatus statusFieldName : String) :
    List FieldValue → List ProjectItem → List ProjectItem
  | [], filtered => filtered
  | fieldValue :: rest, filtered =>
    if fieldValue.Field.Name = statusFieldName ∧
        (fieldValue.Name = targetStatus ∨ fieldValue.Text = targetStatus) then
      filtered ++ [item]
    else
      filterItemsByStatus.inner item targetStatus statusFieldName rest filtered

/-- The outer loop of `filterItemsByStatus`, threading `filtered`. -/
def filterItemsByStatus.outer (targetStatus statusFieldName : String) :
    List ProjectItem → List ProjectItem → List ProjectItem
  | [], filtered => filtered
  | item :: rest, filtered =>
    filterItemsByStatus.outer targetStatus statusFieldName rest
      (filterItemsByStatus.inner item targetStatus statusFieldName item.FieldValues.Nodes filtered)

/-- Go `filterItemsByStatus`. -/
def filterItemsByStatus (items : List ProjectItem) (targetStatus statusFieldName : String) :
    List ProjectItem :=
  filterItemsByStatus.outer targetStatus statusFieldName items []

/-- The selection criterion in the words of the specification: the item has
at least one field value whose field name is the status field name and
whose selection name or free text is the target status. -/
def HasStatus (targetStatus statusFieldName : String) (item : ProjectItem) : Prop :=
  ∃ fv ∈ item.FieldValues.Nodes,
    fv.Field.Name = statusFieldName ∧ (fv.Name = targetStatus ∨ fv.Text = targetStatus)

instance (targetStatus statusFieldName : String) (item : ProjectItem) :
    Decidable (HasStatus targetStatus statusFieldName item) := by
  unfold HasStatus; infer_instance

/-! ## Project identifier resolution (`main.go` 264-307) -/

/-- The error built by `fmt.Errorf("GitHub GraphQL エラー: %s", ...)`: the
`LookupError` of the specification. -/
def LookupError (message : String) : String :=
  "GitHub GraphQL エラー: " ++ message

/-- The error built by `fmt.Errorf("プロジェクトデータが取得できませんでした")`: the
`NoProjectsError` of the specification. -/
def NoProjectsError : String :=
  "プロジェクトデータが取得できませんでした"

/-- The error built by
`fmt.Errorf("プロジェクト #%d が %s に見つかりませんでした", number, owner)`: the
`ProjectNotFoundError` of the specification. -/
def ProjectNotFoundError (number : Int) (owner : String) : String :=
  "プロジェクト #" ++ fmtInt number ++ " が " ++ owner ++ " に見つかりませんでした"

/-- The search loop of `getProjectID`: returns the `ID` of the first project
whose `Number` is the requested one. -/
def getProjectID.search (number : Int) : List Project → Option String
  | [] => none
  | project :: rest =>
    if project.Number = number then some project.ID
    else getProjectID.search number rest

/-- Go `getProjectID`, from the decoded `searchResp` on (lines 264-307). -/
def getProjectID (config : Config) (searchResp : ProjectSearchResponse) :
    Except String String :=
  let projects : List Project := []
  let projects :=
    match searchResp.Data.User with
    | some user => projects ++ user.ProjectsV2.Nodes
    | none => projects
  let projects :=
    match searchResp.Data.Organization with
    | some organization => projects ++ organization.ProjectsV2.Nodes
    | none => projects
  match getProjectID.search config.ProjectNumber projects with
  | some id => .ok id
  | none =>
    if projects.length = 0 then
      match searchResp.Errors with
      | first :: _ => .error (LookupError first.Message)
      | [] => .error NoProjectsError
    else
      .error (ProjectNotFoundError config.ProjectNumber config.ProjectOwner)

/-! ## Display name and assignees (`main.go` 454-510) -/

/-- The field-value loop of `getItemDisplayName`, ending in the default
name. -/
def getItemDisplayName.scan : List FieldValue → String
  | [] => "無題のアイテム"
  | fieldValue :: rest =>
    if fieldValue.Field.Name = "Title" then
      if fieldValue.Text ≠ "" then fieldValue.Text
      else if fieldValue.Name ≠ "" then fieldValue.Name
      else getItemDisplayName.scan rest
    else getItemDisplayName.scan rest

/-- Go `getItemDisplayName`. -/
def getItemDisplayName (item : ProjectItem) : String :=
  match item.Content with
  | .obj contentMap =>
    match contentMap.lookup "title" with
    | some (.str titleStr) =>
      if titleStr ≠ "" then titleStr
      else getItemDisplayName.scan item.FieldValues.Nodes
    | _ => getItemDisplayName.scan item.FieldValues.Nodes
  | _ => getItemDisplayName.scan item.FieldValues.Nodes

/-- The expression `m[key].(string)` with the `ok` result discarded: the
string stored under `key`, and `""` when the key is missing or holds
something else. -/
def stringAt (m : List (String × JSONValue)) (key : String) : String :=
  match m.lookup key with
  | some (.str s) => s
  | _ => ""

/-- The node loop of `getItemAssignees`, threading `assignees`. -/
def getItemAssignees.loop : List JSONValue → List String → List String
  | [], assignees => assignees
  | .obj nodeMap :: rest, assignees =>
    let login := stringAt nodeMap "login"
    let name := stringAt nodeMap "name"
    if name ≠ "" then getItemAssignees.loop rest (assignees ++ [name])
    else getItemAssignees.loop rest (assignees ++ [login])
  | _ :: rest, assignees => getItemAssignees.loop rest assignees

/-- Go `getItemAssignees`. -/
def getItemAssignees (item : ProjectItem) : List String :=
  match item.Content with
  | .obj contentMap =>
    match contentMap.lookup "assignees" with
    | some (.obj assigneesMap) =>
      match assigneesMap.lookup "nodes" with
      | some (.arr nodesList) => getItemAssignees.loop nodesList []
      | _ => []
    | _ => []
  | _ => []

/-! ## Notification formatter (`main.go` 512-555) -/

/-- The `projectURL` variable of `sendMattermostNotification` (lines
515-521). -/
def sendMattermostNotification.projectURL (config : Config) : String :=
  if config.ProjectViewNumber > 1 then
    "https://github.com/orgs/" ++ config.ProjectOwner ++ "/projects/" ++
      fmtInt config.ProjectNumber ++ "/views/" ++ fmtInt config.ProjectViewNumber
  else
    "https://github.com/orgs/" ++ config.ProjectOwner ++ "/projects/" ++
      fmtInt config.ProjectNumber

/-- The value given to `message.Text` (lines 523-530). -/
def sendMattermostNotification.text (config : Config) (items : List ProjectItem) : String :=
  if h : items.length = 1 then
    let itemName := getItemDisplayName (items.get ⟨0, by omega⟩)
    "📋 **" ++ itemName ++ "** がレビュー待ちです\n[プロジェクトを確認する](" ++
      sendMattermostNotification.projectURL config ++ ")"
  else
    "📋 レビュー待ちのアイテムが" ++ fmtInt items.length ++ "件あります\n[プロジェクトを確認する](" ++
      sendMattermostNotification.projectURL config ++ ")"

/-- The `assigneeText` variable built for one item (lines 538-543). -/
def sendMattermostNotification.assigneeText (assignees : List String) : String :=
  if assignees.length > 0 then "👤 " ++ String.intercalate ", " assignees
  else "👤 未割り当て"

/-- The attachment built for one item (lines 534-553). -/
def sendMattermostNotification.attachment (item : ProjectItem) : Attachment :=
  let itemName := getItemDisplayName item
  let assignees := getItemAssignees item
  { Color := "warning"
    Title := itemName
    Text := sendMattermostNotification.assigneeText assignees }

/-- Go `sendMattermostNotification` up to the point where the message is
serialised: the message that is posted to the webhook. -/
def sendMattermostNotification (config : Config) (items : List ProjectItem) :
    MattermostMessage :=
  { Text := sendMattermostNotification.text config items
    Username := ""
    IconEmoji := ""
    Channel := ""
    Attachments :=
      items.foldl (fun attachments item =>
        attachments ++ [sendMattermostNotification.attachment item]) [] }

/-! ## Numeric settings (`main.go` 113-115, 168-173) -/

/-- The process environment: the value bound to each variable, if any. -/
abbrev Environ := String → Option String

/-- Go `os.Getenv`: the value of the variable, `""` when it is unset. -/
def Getenv (environ : Environ) (key : String) : String :=
  (environ key).getD ""

/-- Go `getEnvWithDefault`. -/
def getEnvWithDefault (environ : Environ) (key defaultValue : String) : String :=
  let value := Getenv environ key
  if value ≠ "" then value else defaultValue

/-- The two causes carried by a `*strconv.NumError`. -/
inductive NumError where
  | ErrSyntax
  | ErrRange
  deriving DecidableEq, Repr

/-- The digit loop of Go `strconv.ParseUint(s, 10, 64)`: `cutoff` is
`maxUint64/10 + 1` and `maxVal` is `1<<64 - 1`. -/
def ParseUint.loop : List Char → Nat → Nat × Option NumError
  | [], n => (n, none)
  | c :: rest, n =>
    if 48 ≤ c.toNat ∧ c.toNat ≤ 57 then
      let d := c.toNat - 48
      if n ≥ (2 ^ 64 - 1) / 10 + 1 then (2 ^ 64 - 1, some .ErrRange)
      else
        let n1 := n * 10 + d
        if n1 > 2 ^ 64 - 1 then (2 ^ 64 - 1, some .ErrRange)
        else ParseUint.loop rest n1
    else (0, some .ErrSyntax)

/-- Go `strconv.ParseUint(s, 10, 64)` of the standard library. -/
def ParseUint (s : List Char) : Nat × Option NumError :=
  if s = [] then (0, some .ErrSyntax) else ParseUint.loop s 0

/-- Go `strconv.ParseInt(s, 10, 0)` of the standard library with a 64-bit
`int`: the value returned and the cause of the error, if any. -/
def ParseInt (s : List Char) : Int × Option NumError :=
  if s = [] then (0, some .ErrSyntax)
  else
    let neg := s.head? = some '-'
    let body := if s.head? = some '+' ∨ s.head? = some '-' then s.tail else s
    match ParseUint body with
    | (_, some .ErrSyntax) => (0, some .ErrSyntax)
    | (un, _) =>
      if ¬ neg ∧ un ≥ 2 ^ 63 then (2 ^ 63 - 1, some .ErrRange)
      else if neg ∧ un > 2 ^ 63 then (-(2 ^ 63), some .ErrRange)
      else (if neg then -(un : Int) else (un : Int), none)

/-- Go `strconv.Atoi` of the standard library (64-bit `int`), through its
`ParseInt` path; the fast path it takes for short texts returns the same
value and error. -/
def Atoi (s : String) : Int × Option NumError :=
  ParseInt s.data

/-- The value of `projectNumber` in `main` (line 114): the error of `Atoi`
is discarded. -/
def main.projectNumber (environ : Environ) : Int :=
  (Atoi (Getenv environ "PROJECT_NUMBER")).1

/-- The value of `projectViewNumber` in `main` (line 115): the error of
`Atoi` is discarded. -/
def main.projectViewNumber (environ : Environ) : Int :=
  (Atoi (getEnvWithDefault environ "PROJECT_VIEW_NUMBER" "1")).1

/-! ## Specification-side definitions -/

/-- The merged project list in the words of the specification: the user
project list (when user is non-null) followed by the organization project
list (when organization is non-null). -/
def mergedProjects (searchResp : ProjectSearchResponse) : List Project :=
  (match searchResp.Data.User with
    | some user => user.ProjectsV2.Nodes
    | none => []) ++
  (match searchResp.Data.Organization with
    | some organization => organization.ProjectsV2.Nodes
    | none => [])

/-- The title of a content payload in the words of the specification: the
payload is an object whose `title` is a non-empty string. -/
def payloadTitle : JSONValue → Option String
  | .obj contentMap =>
    match contentMap.lookup "title" with
    | some (.str t) => if t = "" then none else some t
    | _ => none
  | _ => none

/-- A field value that names the item, in the words of the specification:
it is named "Title" and its free text or its selection name is non-empty. -/
def IsTitleField (fv : FieldValue) : Prop :=
  fv.Field.Name = "Title" ∧ (fv.Text ≠ "" ∨ fv.Name ≠ "")

instance (fv : FieldValue) : Decidable (IsTitleField fv) := by
  unfold IsTitleField; infer_instance

/-- The value of a title field: its free text if non-empty, else its
selection name. -/
def titleFieldValue (fv : FieldValue) : String :=
  if fv.Text ≠ "" then fv.Text else fv.Name

/-- The assignee list of a content payload in the words of the
specification: the `nodes` array of the `assignees` object of the payload,
empty when the payload has none. -/
def payloadAssigneeNodes : JSONValue → List JSONValue
  | .obj contentMap =>
    match contentMap.lookup "assignees" with
    | some (.obj assigneesMap) =>
      match assigneesMap.lookup "nodes" with
      | some (.arr nodesList) => nodesList
      | _ => []
    | _ => []
  | _ => []

/-- What one entry of the assignee list contributes: for an object, its
display name if non-empty and otherwise its login handle; nothing for an
entry that is not an object. -/
def assigneeLabel : JSONValue → Option String
  | .obj nodeMap =>
    some (if stringAt nodeMap "name" ≠ "" then stringAt nodeMap "name"
      else stringAt nodeMap "login")
  | _ => none

/-- A decimal digit. -/
def IsDigit (c : Char) : Prop := 48 ≤ c.toNat ∧ c.toNat ≤ 57

instance (c : Char) : Decidable (IsDigit c) := by
  unfold IsDigit; infer_instance

/-- The number a run of decimal digits denotes, continuing from `n`. -/
def digitsValueFrom (n : Nat) (ds : List Char) : Nat :=
  ds.foldl (fun a c => a * 10 + (c.toNat - 48)) n

/-- A text split into its optional sign (`true` for a minus) and the rest. -/
def splitSign : List Char → Bool × List Char
  | '-' :: ds => (true, ds)
  | '+' :: ds => (false, ds)
  | ds => (false, ds)

/-- The integer a text denotes: an optional sign followed by one or more
decimal digits; `none` for any other text. -/
def parsedInteger? (text : String) : Option Int :=
  if (splitSign text.data).2 ≠ [] ∧ ∀ c ∈ (splitSign text.data).2, IsDigit c then
    some (if (splitSign text.data).1 then -(digitsValueFrom 0 (splitSign text.data).2 : Int)
      else (digitsValueFrom 0 (splitSign text.data).2 : Int))
  else none

/-- The text is a valid integer of value `v`: it denotes `v` and `v` is in
the range of a 64-bit `int`. -/
def ValidInteger (text : String) (v : Int) : Prop :=
  parsedInteger? text = some v ∧ -(2 ^ 63) ≤ v ∧ v ≤ 2 ^ 63 - 1

instance (text : String) (v : Int) : Decidable (ValidInteger text v) := by
  unfold ValidInteger; infer_instance

/-- The decimal digits a run of characters starts with: those before its
first character that is not a digit. -/
def leadingDigits (ds : List Char) : List Char :=
  ds.takeWhile (fun c => decide (IsDigit c))

/-! ### Lemmas on the filter loops -/

theorem filterItemsByStatus.inner_eq (item : ProjectItem) (s f : String)
    (fvs : List FieldValue) (acc : List ProjectItem) :
    filterItemsByStatus.inner item s f fvs acc =
      if ∃ fv ∈ fvs, fv.Field.Name = f ∧ (fv.Name = s ∨ fv.Text = s) then acc ++ [item]
      else acc := by
  induction fvs with
  | nil => simp [filterItemsByStatus.inner]
  | cons fv rest ih =>
    by_cases h : fv.Field.Name = f ∧ (fv.Name = s ∨ fv.Text = s)
    · simp [filterItemsByStatus.inner, h]
    · simp only [filterItemsByStatus.inner, h, if_false, ih]
      simp [h]

theorem filterItemsByStatus.outer_eq (s f : String) (items acc : List ProjectItem) :
    filterItemsByStatus.outer s f items acc =
      acc ++ items.filter (fun it => decide (HasStatus s f it)) := by
  induction items generalizing acc with
  | nil => simp [filterItemsByStatus.outer]
  | cons it rest ih =>
    rw [filterItemsByStatus.outer, ih, filterItemsByStatus.inner_eq]
    by_cases h : HasStatus s f it
    · have h' := h
      unfold HasStatus at h'
      simp [h, h', List.filter_cons]
    · have h' := h
      unfold HasStatus at h'
      simp [h, h', List.filter_cons]

theorem filterItemsByStatus_eq_filter (items : List ProjectItem) (s f : String) :
    filterItemsByStatus items s f = items.filter (fun it => decide (HasStatus s f it)) := by
  simp [filterItemsByStatus, filterItemsByStatus.outer_eq]


/-! ### Lemmas on project search -/

theorem getProjectID.search_eq (number : Int) (projects : List Project) :
    getProjectID.search number projects =
      (projects.find? (fun q => decide (q.Number = number))).map (fun q => q.ID) := by
  induction projects with
  | nil => rfl
  | cons q rest ih =>
    by_cases h : q.Number = number
    · simp [getProjectID.search, h]
    · simp [getProjectID.search, h, ih]

theorem getProjectID_eq (config : Config) (searchResp : ProjectSearchResponse) :
    getProjectID config searchResp =
      match (mergedProjects searchResp).find? (fun q => decide (q.Number = config.ProjectNumber)) with
      | some q => .ok q.ID
      | none =>
        if (mergedProjects searchResp).length = 0 then
          match searchResp.Errors with
          | first :: _ => .error (LookupError first.Message)
          | [] => .error NoProjectsError
        else .error (ProjectNotFoundError config.ProjectNumber config.ProjectOwner) := by
  obtain ⟨⟨user, organization⟩, errors⟩ := searchResp
  cases user <;> cases organization <;>
    simp only [getProjectID, mergedProjects, getProjectID.search_eq, List.nil_append,
      List.append_nil] <;>
    generalize List.find? _ _ = r <;> cases r <;> rfl

/-! ### Lemmas on the display name -/

theorem getItemDisplayName.scan_eq (fvs : List FieldValue) :
    getItemDisplayName.scan fvs =
      match fvs.find? (fun fv => decide (IsTitleField fv)) with
      | some fv => titleFieldValue fv
      | none => "無題のアイテム" := by
  induction fvs with
  | nil => rfl
  | cons fv rest ih =>
    by_cases h1 : fv.Field.Name = "Title"
    · by_cases h2 : fv.Text = ""
      · by_cases h3 : fv.Name = ""
        · simp [getItemDisplayName.scan, IsTitleField, h1, h2, h3, ih]
        · simp [getItemDisplayName.scan, IsTitleField, titleFieldValue, h1, h2, h3]
      · simp [getItemDisplayName.scan, IsTitleField, titleFieldValue, h1, h2]
    · simp [getItemDisplayName.scan, IsTitleField, h1, ih]

theorem getItemDisplayName.scan_ne_empty (fvs : List FieldValue) :
    getItemDisplayName.scan fvs ≠ "" := by
  induction fvs with
  | nil => simp only [getItemDisplayName.scan]; decide
  | cons fv rest ih =>
    simp only [getItemDisplayName.scan]
    split
    · split
      · assumption
      · split
        · assumption
        · exact ih
    · exact ih

/-! ## The claims -/

/-- C1: `filterItemsByStatus` returns exactly the items of the input that
have at least one field value whose field name is the status field name and
whose `Name` or `Text` is the target status, in input order, every input
occurrence kept at most once (it is the order-preserving filter of the input
by that criterion); it is the empty list exactly when no item matches. -/
theorem filterItemsByStatus_spec (items : List ProjectItem) (targetStatus statusFieldName : String) :
    filterItemsByStatus items targetStatus statusFieldName =
        items.filter (fun it => decide (∃ fv ∈ it.FieldValues.Nodes,
          fv.Field.Name = statusFieldName ∧
            (fv.Name = targetStatus ∨ fv.Text = targetStatus))) ∧
      (filterItemsByStatus items targetStatus statusFieldName = [] ↔
        ∀ it ∈ items, ¬ ∃ fv ∈ it.FieldValues.Nodes,
          fv.Field.Name = statusFieldName ∧
            (fv.Name = targetStatus ∨ fv.Text = targetStatus)) := by
  have h := filterItemsByStatus_eq_filter items targetStatus statusFieldName
  refine ⟨h, ?_⟩
  rw [h, List.filter_eq_nil_iff]
  simp [HasStatus]

/-- C7: `filterItemsByStatus` is idempotent: filtering an already filtered
list with the same target status and status field name returns the same
list. -/
theorem filterItemsByStatus_idempotent (items : List ProjectItem)
    (targetStatus statusFieldName : String) :
    filterItemsByStatus (filterItemsByStatus items targetStatus statusFieldName)
        targetStatus statusFieldName =
      filterItemsByStatus items targetStatus statusFieldName := by
  simp [filterItemsByStatus_eq_filter, List.filter_filter]

/-- C2: when the user project list (if non-null) followed by the organization
project list (if non-null) contains a project with the requested number,
`getProjectID` returns the `ID` of the first such project with no error,
whatever application-level errors the response carries; with user =
[project #5, id "PID1"], organization = null and requested number 5 it
returns "PID1". -/
theorem getProjectID_found (config : Config) (searchResp : ProjectSearchResponse)
    (project : Project)
    (h : (mergedProjects searchResp).find?
        (fun q => decide (q.Number = config.ProjectNumber)) = some project) :
    getProjectID config searchResp = .ok project.ID ∧
      ∀ (title : String) (errors : List GraphQLError),
        getProjectID { config with ProjectNumber := 5 }
          { Data := { User := some ⟨⟨[⟨"PID1", 5, title⟩]⟩⟩, Organization := none },
            Errors := errors } = .ok "PID1" := by
  constructor
  · rw [getProjectID_eq, h]
  · intro title errors
    rw [getProjectID_eq]
    simp [mergedProjects]

/-- Witness of C2: the scenario owner "acme", number 5, with a partial
application-level error in the response. -/
theorem getProjectID_found_witness :
    getProjectID ⟨"t", "", "acme", 5, 1, "u", "In review", "Status", false⟩
        ⟨⟨some ⟨⟨[⟨"PID0", 4, "a"⟩, ⟨"PID1", 5, "b"⟩]⟩⟩, some ⟨⟨[⟨"PID2", 5, "c"⟩]⟩⟩⟩,
          [⟨"partial"⟩]⟩ = .ok "PID1" :=
  (getProjectID_found ⟨"t", "", "acme", 5, 1, "u", "In review", "Status", false⟩
    ⟨⟨some ⟨⟨[⟨"PID0", 4, "a"⟩, ⟨"PID1", 5, "b"⟩]⟩⟩, some ⟨⟨[⟨"PID2", 5, "c"⟩]⟩⟩⟩,
      [⟨"partial"⟩]⟩ ⟨"PID1", 5, "b"⟩ (by decide)).1

/-- C6: when no project of the merged user+organization list has the
requested number, `getProjectID` fails: with the first application-level
error message (`LookupError`) when the merged list is empty and the response
has at least one error, with `NoProjectsError` when the merged list is empty
and the response has no error, with `ProjectNotFoundError` when the merged
list is non-empty. -/
theorem getProjectID_not_found (config : Config) (searchResp : ProjectSearchResponse)
    (h : ∀ q ∈ mergedProjects searchResp, q.Number ≠ config.ProjectNumber) :
    (∀ first rest, mergedProjects searchResp = [] → searchResp.Errors = first :: rest →
        getProjectID config searchResp = .error (LookupError first.Message)) ∧
      (mergedProjects searchResp = [] → searchResp.Errors = [] →
        getProjectID config searchResp = .error NoProjectsError) ∧
      (mergedProjects searchResp ≠ [] →
        getProjectID config searchResp =
          .error (ProjectNotFoundError config.ProjectNumber config.ProjectOwner)) := by
  have hnone : (mergedProjects searchResp).find?
      (fun q => decide (q.Number = config.ProjectNumber)) = none := by
    rw [List.find?_eq_none]
    intro q hq
    simpa using h q hq
  rw [getProjectID_eq, hnone]
  refine ⟨?_, ?_, ?_⟩
  · intro first rest hm he
    simp [hm, he]
  · intro hm he
    simp [hm, he]
  · intro hm
    simp [List.length_eq_zero, hm]

/-- Witness of C6: a non-empty merged list without project #7. -/
theorem getProjectID_not_found_witness :
    getProjectID ⟨"t", "", "acme", 7, 1, "u", "In review", "Status", false⟩
        ⟨⟨some ⟨⟨[⟨"PID1", 5, "b"⟩]⟩⟩, none⟩, [⟨"partial"⟩]⟩ =
      .error (ProjectNotFoundError 7 "acme") :=
  (getProjectID_not_found ⟨"t", "", "acme", 7, 1, "u", "In review", "Status", false⟩
    ⟨⟨some ⟨⟨[⟨"PID1", 5, "b"⟩]⟩⟩, none⟩, [⟨"partial"⟩]⟩ (by decide)).2.2 (by decide)

/-- C5: `getItemDisplayName` returns (a) the title of the content payload
when the payload is an object whose `title` is a non-empty string; (b)
otherwise the value of the first field value named "Title" that has a
non-empty `Text` or `Name`, its `Text` if non-empty and else its `Name`; (c)
otherwise, when no field value named "Title" has a non-empty `Text` or
`Name`, the fixed placeholder. -/
theorem getItemDisplayName_spec (item : ProjectItem) :
    getItemDisplayName item =
      match payloadTitle item.Content with
      | some title => title
      | none =>
        match item.FieldValues.Nodes.find? (fun fv => decide (IsTitleField fv)) with
        | some fv => titleFieldValue fv
        | none => "無題のアイテム" := by
  obtain ⟨id, content, fvs⟩ := item
  simp only [getItemDisplayName, payloadTitle, getItemDisplayName.scan_eq]
  cases content with
  | obj kvs =>
    simp only
    cases hk : kvs.lookup "title" with
    | none => simp
    | some v =>
      cases v with
      | str t => by_cases ht : t = "" <;> simp [ht]
      | _ => simp
  | _ => simp

/-- C8: for every item, whatever its content payload and field values,
`getItemDisplayName` returns a non-empty string. -/
theorem getItemDisplayName_ne_empty (item : ProjectItem) :
    getItemDisplayName item ≠ "" := by
  unfold getItemDisplayName
  split
  · split
    · split
      · assumption
      · exact getItemDisplayName.scan_ne_empty _
    · exact getItemDisplayName.scan_ne_empty _
  · exact getItemDisplayName.scan_ne_empty _

/-! ### Lemmas on the formatter -/

theorem getItemAssignees.loop_eq (nodes : List JSONValue) (acc : List String) :
    getItemAssignees.loop nodes acc = acc ++ nodes.filterMap assigneeLabel := by
  induction nodes generalizing acc with
  | nil => simp [getItemAssignees.loop]
  | cons node rest ih =>
    cases node with
    | obj nodeMap =>
      by_cases hn : stringAt nodeMap "name" = ""
      · simp [getItemAssignees.loop, assigneeLabel, hn, ih]
      · simp [getItemAssignees.loop, assigneeLabel, hn, ih]
    | _ => simp [getItemAssignees.loop, assigneeLabel, ih]

theorem getItemAssignees_eq (item : ProjectItem) :
    getItemAssignees item = (payloadAssigneeNodes item.Content).filterMap assigneeLabel := by
  obtain ⟨id, content, fvs⟩ := item
  cases content with
  | obj kvs =>
    simp only [getItemAssignees, payloadAssigneeNodes]
    cases kvs.lookup "assignees" with
    | none => simp
    | some v =>
      cases v with
      | obj am =>
        simp only
        cases am.lookup "nodes" with
        | none => simp
        | some w =>
          cases w with
          | arr ns => simp [getItemAssignees.loop_eq]
          | _ => simp
      | _ => simp
  | _ => simp [getItemAssignees, payloadAssigneeNodes]

theorem attachments_foldl_eq (items : List ProjectItem) (acc : List Attachment) :
    items.foldl (fun attachments item =>
        attachments ++ [sendMattermostNotification.attachment item]) acc =
      acc ++ items.map sendMattermostNotification.attachment := by
  induction items generalizing acc with
  | nil => simp
  | cons it rest ih => simp [ih]

theorem single_ne_count (name count u1 u2 : String) :
    "📋 **" ++ name ++ "** がレビュー待ちです\n[プロジェクトを確認する](" ++ u1 ++ ")" ≠
      "📋 レビュー待ちのアイテムが" ++ count ++ "件あります\n[プロジェクトを確認する](" ++ u2 ++ ")" := by
  intro h
  have h2 := congrArg String.data h
  simp only [String.data_append] at h2
  simp at h2

theorem text_single (config : Config) (item : ProjectItem) :
    sendMattermostNotification.text config [item] =
      "📋 **" ++ getItemDisplayName item ++ "** がレビュー待ちです\n[プロジェクトを確認する](" ++
        sendMattermostNotification.projectURL config ++ ")" := by
  simp [sendMattermostNotification.text]

theorem text_count (config : Config) (items : List ProjectItem) (h : items.length ≠ 1) :
    sendMattermostNotification.text config items =
      "📋 レビュー待ちのアイテムが" ++ toString items.length ++ "件あります\n[プロジェクトを確認する](" ++
        sendMattermostNotification.projectURL config ++ ")" := by
  simp only [sendMattermostNotification.text, h, dite_false]
  rfl

/-- C3: the text of the message names the item (its resolved display name,
in the emoji-prefixed sentence followed by the markdown link to the project
URL) if and only if the list has exactly one item; for a list of N items
with N different from 1 the text states the count N instead, with the same
markdown link; the text for one item is never the text for two items. -/
theorem sendMattermostNotification_text_spec (config : Config) (items : List ProjectItem) :
    (∀ item, items = [item] →
        (sendMattermostNotification config items).Text =
          "📋 **" ++ getItemDisplayName item ++ "** がレビュー待ちです\n[プロジェクトを確認する](" ++
            sendMattermostNotification.projectURL config ++ ")") ∧
      (items.length ≠ 1 →
        (sendMattermostNotification config items).Text =
          "📋 レビュー待ちのアイテムが" ++ toString items.length ++
            "件あります\n[プロジェクトを確認する](" ++
            sendMattermostNotification.projectURL config ++ ")") ∧
      ((∃ name, (sendMattermostNotification config items).Text =
          "📋 **" ++ name ++ "** がレビュー待ちです\n[プロジェクトを確認する](" ++
            sendMattermostNotification.projectURL config ++ ")") ↔ items.length = 1) ∧
      (∀ (config2 : Config) (a b c : ProjectItem),
        (sendMattermostNotification config [a]).Text ≠
          (sendMattermostNotification config2 [b, c]).Text) := by
  refine ⟨?_, ?_, ?_, ?_⟩
  · rintro item rfl
    exact text_single config item
  · intro h
    exact text_count config items h
  · constructor
    · rintro ⟨name, hname⟩
      by_contra hlen
      have hc := text_count config items hlen
      simp only [sendMattermostNotification] at hname
      rw [hc] at hname
      exact single_ne_count _ _ _ _ hname.symm
    · intro hlen
      match items, hlen with
      | [item], _ => exact ⟨getItemDisplayName item, text_single config item⟩
  · intro config2 a b c
    simp only [sendMattermostNotification]
    rw [text_single, text_count config2 [b, c] (by simp)]
    exact single_ne_count _ _ _ _

/-- Witness of C3: one titled item is named, an empty list is counted. -/
theorem sendMattermostNotification_text_witness :
    (sendMattermostNotification ⟨"t", "P", "acme", 5, 1, "u", "In review", "Status", false⟩
        [⟨"I1", .obj [("title", .str "Fix login")], ⟨[]⟩⟩]).Text =
      "📋 **" ++ getItemDisplayName ⟨"I1", .obj [("title", .str "Fix login")], ⟨[]⟩⟩ ++
        "** がレビュー待ちです\n[プロジェクトを確認する](" ++
        sendMattermostNotification.projectURL
          ⟨"t", "P", "acme", 5, 1, "u", "In review", "Status", false⟩ ++ ")" ∧
      (sendMattermostNotification ⟨"t", "P", "acme", 5, 1, "u", "In review", "Status", false⟩
        []).Text =
      "📋 レビュー待ちのアイテムが" ++ toString ([] : List ProjectItem).length ++
        "件あります\n[プロジェクトを確認する](" ++
        sendMattermostNotification.projectURL
          ⟨"t", "P", "acme", 5, 1, "u", "In review", "Status", false⟩ ++ ")" :=
  ⟨(sendMattermostNotification_text_spec
      ⟨"t", "P", "acme", 5, 1, "u", "In review", "Status", false⟩
      [⟨"I1", .obj [("title", .str "Fix login")], ⟨[]⟩⟩]).1 _ rfl,
    (sendMattermostNotification_text_spec
      ⟨"t", "P", "acme", 5, 1, "u", "In review", "Status", false⟩ []).2.1 (by decide)⟩

/-- C9: the project URL placed in the notification is the view-qualified
URL (the bare URL followed by /views/<view number>) when the configured view
number exceeds 1 and the bare URL
https://github.com/orgs/<owner>/projects/<number> otherwise; view number 1
gives the bare URL and view number 2 the view-qualified one; the message
text ends with the markdown link to that URL. -/
theorem projectURL_spec (config : Config) :
    (config.ProjectViewNumber > 1 →
        sendMattermostNotification.projectURL config =
          "https://github.com/orgs/" ++ config.ProjectOwner ++ "/projects/" ++
            toString config.ProjectNumber ++ "/views/" ++ toString config.ProjectViewNumber) ∧
      (config.ProjectViewNumber ≤ 1 →
        sendMattermostNotification.projectURL config =
          "https://github.com/orgs/" ++ config.ProjectOwner ++ "/projects/" ++
            toString config.ProjectNumber) ∧
      sendMattermostNotification.projectURL { config with ProjectViewNumber := 1 } =
        "https://github.com/orgs/" ++ config.ProjectOwner ++ "/projects/" ++
          toString config.ProjectNumber ∧
      sendMattermostNotification.projectURL { config with ProjectViewNumber := 2 } =
        "https://github.com/orgs/" ++ config.ProjectOwner ++ "/projects/" ++
          toString config.ProjectNumber ++ "/views/2" ∧
      ∀ items : List ProjectItem, ∃ head : String,
        (sendMattermostNotification config items).Text =
          head ++ "[プロジェクトを確認する](" ++
            sendMattermostNotification.projectURL config ++ ")" := by
  refine ⟨?_, ?_, ?_, ?_, ?_⟩
  · intro h
    simp [sendMattermostNotification.projectURL, h, fmtInt]
  · intro h
    have h2 : ¬ config.ProjectViewNumber > 1 := by omega
    simp [sendMattermostNotification.projectURL, h2, fmtInt]
  · simp [sendMattermostNotification.projectURL, fmtInt]
  · have h2 : toString (2 : Int) = "2" := by decide
    have h3 : "/views/" ++ "2" = "/views/2" := by decide
    simp only [sendMattermostNotification.projectURL, fmtInt, h2]
    rw [if_pos (by decide), String.append_assoc _ "/views/" "2", h3]
  · intro items
    by_cases h : items.length = 1
    · match items, h with
      | [item], _ =>
        refine ⟨"📋 **" ++ getItemDisplayName item ++ "** がレビュー待ちです\n", ?_⟩
        simp only [sendMattermostNotification]
        rw [text_single]
        apply String.ext
        simp [String.data_append]
    · refine ⟨"📋 レビュー待ちのアイテムが" ++ toString items.length ++ "件あります\n", ?_⟩
      simp only [sendMattermostNotification]
      rw [text_count config items h]
      apply String.ext
      simp [String.data_append]

/-- Witness of C9: view number 3 gives the view-qualified URL, view number 0
the bare one. -/
theorem projectURL_witness :
    sendMattermostNotification.projectURL
        ⟨"t", "P", "acme", 5, 3, "u", "In review", "Status", false⟩ =
      "https://github.com/orgs/" ++ "acme" ++ "/projects/" ++ toString (5 : Int) ++
        "/views/" ++ toString (3 : Int) ∧
      sendMattermostNotification.projectURL
        ⟨"t", "P", "acme", 5, 0, "u", "In review", "Status", false⟩ =
      "https://github.com/orgs/" ++ "acme" ++ "/projects/" ++ toString (5 : Int) :=
  ⟨(projectURL_spec ⟨"t", "P", "acme", 5, 3, "u", "In review", "Status", false⟩).1 (by decide),
    (projectURL_spec ⟨"t", "P", "acme", 5, 0, "u", "In review", "Status", false⟩).2.1
      (by decide)⟩

/-- C4, as the code has it: the names of an item are what the object entries
of the content payload's assignee list contribute, in the order of that
list, each its display name if non-empty and otherwise its login handle; the
assignee text of the item's attachment is the fixed "unassigned" marker when
there is no name, and otherwise the person emoji and a blank followed by the
names joined with ", "; the attachments of the message are those of the
items, in order. -/
theorem assigneeText_spec (item : ProjectItem) :
    getItemAssignees item = (payloadAssigneeNodes item.Content).filterMap assigneeLabel ∧
      (getItemAssignees item = [] →
        (sendMattermostNotification.attachment item).Text = "👤 未割り当て") ∧
      (getItemAssignees item ≠ [] →
        (sendMattermostNotification.attachment item).Text =
          "👤 " ++ String.intercalate ", " (getItemAssignees item)) ∧
      ∀ (config : Config) (items : List ProjectItem),
        (sendMattermostNotification config items).Attachments =
          items.map sendMattermostNotification.attachment := by
  refine ⟨getItemAssignees_eq item, ?_, ?_, ?_⟩
  · intro h
    simp [sendMattermostNotification.attachment, sendMattermostNotification.assigneeText, h]
  · intro h
    have hl : (getItemAssignees item).length > 0 := List.length_pos.mpr h
    simp [sendMattermostNotification.attachment, sendMattermostNotification.assigneeText, hl]
  · intro config items
    simp [sendMattermostNotification, attachments_foldl_eq]

/-- Witness of C4: an item with the assignees Alice (named) and bob (login
only), and an item without content. -/
theorem assigneeText_witness :
    (sendMattermostNotification.attachment
        ⟨"I1", .obj [("assignees", .obj [("nodes",
          .arr [.obj [("login", .str "alice"), ("name", .str "Alice")],
            .obj [("login", .str "bob"), ("name", .null)]])])], ⟨[]⟩⟩).Text =
      "👤 " ++ String.intercalate ", " (getItemAssignees
        ⟨"I1", .obj [("assignees", .obj [("nodes",
          .arr [.obj [("login", .str "alice"), ("name", .str "Alice")],
            .obj [("login", .str "bob"), ("name", .null)]])])], ⟨[]⟩⟩) ∧
      (sendMattermostNotification.attachment ⟨"I2", .null, ⟨[]⟩⟩).Text = "👤 未割り当て" :=
  ⟨(assigneeText_spec
      ⟨"I1", .obj [("assignees", .obj [("nodes",
        .arr [.obj [("login", .str "alice"), ("name", .str "Alice")],
          .obj [("login", .str "bob"), ("name", .null)]])])], ⟨[]⟩⟩).2.2.1 (by decide),
    (assigneeText_spec ⟨"I2", .null, ⟨[]⟩⟩).2.1 (by decide)⟩

/-- C4 as stated fails: for an item whose only assignee has the display name
"Alice", the assignee text of the attachment is "👤 Alice", which is not the
comma-joined names "Alice". -/
theorem assigneeText_counterexample :
    getItemAssignees
        ⟨"I1", .obj [("assignees", .obj [("nodes",
          .arr [.obj [("login", .str "alice"), ("name", .str "Alice")]])])], ⟨[]⟩⟩ = ["Alice"] ∧
      (sendMattermostNotification.attachment
        ⟨"I1", .obj [("assignees", .obj [("nodes",
          .arr [.obj [("login", .str "alice"), ("name", .str "Alice")]])])], ⟨[]⟩⟩).Text =
        "👤 Alice" ∧
      (sendMattermostNotification.attachment
        ⟨"I1", .obj [("assignees", .obj [("nodes",
          .arr [.obj [("login", .str "alice"), ("name", .str "Alice")]])])], ⟨[]⟩⟩).Text ≠
        String.intercalate ", " ["Alice"] := by
  refine ⟨by decide, by decide, by decide⟩

/-! ### Lemmas on the numeric settings -/

theorem digitsValueFrom_ge (ds : List Char) (n : Nat) : n ≤ digitsValueFrom n ds := by
  induction ds generalizing n with
  | nil => simp [digitsValueFrom]
  | cons c rest ih =>
    have h := ih (n * 10 + (c.toNat - 48))
    simp only [digitsValueFrom, List.foldl_cons] at h ⊢
    omega

theorem ParseUint.loop_digits (ds : List Char) (n : Nat) (hd : ∀ c ∈ ds, IsDigit c)
    (hv : digitsValueFrom n ds ≤ 2 ^ 64 - 1) :
    ParseUint.loop ds n = (digitsValueFrom n ds, none) := by
  induction ds generalizing n with
  | nil => simp [ParseUint.loop, digitsValueFrom]
  | cons c rest ih =>
    have hc : IsDigit c := hd c (List.mem_cons_self _ _)
    have hr : ∀ c ∈ rest, IsDigit c := fun x hx => hd x (List.mem_cons_of_mem _ hx)
    have hstep : digitsValueFrom n (c :: rest) =
        digitsValueFrom (n * 10 + (c.toNat - 48)) rest := by
      simp [digitsValueFrom]
    rw [hstep] at hv ⊢
    have hge := digitsValueFrom_ge rest (n * 10 + (c.toNat - 48))
    unfold IsDigit at hc
    have h1 : ¬ n ≥ (2 ^ 64 - 1) / 10 + 1 := by omega
    have h2 : ¬ n * 10 + (c.toNat - 48) > 2 ^ 64 - 1 := by omega
    simp only [ParseUint.loop, hc, and_self, if_true, h1, h2, if_false]
    exact ih _ hr hv

theorem ParseUint.loop_bad (ds : List Char) (n : Nat) (hn : n ≤ 2 ^ 64 - 1)
    (hbad : ∃ c ∈ ds, ¬ IsDigit c) :
    ParseUint.loop ds n =
      if digitsValueFrom n (leadingDigits ds) ≤ 2 ^ 64 - 1 then (0, some .ErrSyntax)
      else (2 ^ 64 - 1, some .ErrRange) := by
  induction ds generalizing n with
  | nil => simp at hbad
  | cons c rest ih =>
    by_cases hc : IsDigit c
    · have hrest : ∃ x ∈ rest, ¬ IsDigit x := by
        obtain ⟨x, hx, hxd⟩ := hbad
        rcases List.mem_cons.mp hx with rfl | hx
        · exact absurd hc hxd
        · exact ⟨x, hx, hxd⟩
      have hlead : digitsValueFrom n (leadingDigits (c :: rest)) =
          digitsValueFrom (n * 10 + (c.toNat - 48)) (leadingDigits rest) := by
        simp [leadingDigits, List.takeWhile_cons, hc, digitsValueFrom]
      have hge := digitsValueFrom_ge (leadingDigits rest) (n * 10 + (c.toNat - 48))
      rw [hlead]
      have hc2 := hc
      unfold IsDigit at hc2
      by_cases h1 : n ≥ (2 ^ 64 - 1) / 10 + 1
      · have hover : ¬ digitsValueFrom (n * 10 + (c.toNat - 48)) (leadingDigits rest) ≤
            2 ^ 64 - 1 := by omega
        simp only [ParseUint.loop, hc2, and_self, if_true, h1, hover, if_false]
      · by_cases h2 : n * 10 + (c.toNat - 48) > 2 ^ 64 - 1
        · have hover : ¬ digitsValueFrom (n * 10 + (c.toNat - 48)) (leadingDigits rest) ≤
              2 ^ 64 - 1 := by omega
          simp only [ParseUint.loop, hc2, and_self, if_true, h1, h2, hover, if_false]
        · simp only [ParseUint.loop, hc2, and_self, if_true, h1, h2, if_false]
          exact ih _ (by omega) hrest
    · have hlead : digitsValueFrom n (leadingDigits (c :: rest)) = n := by
        simp [leadingDigits, List.takeWhile_cons, hc, digitsValueFrom]
      rw [hlead, if_pos hn]
      unfold IsDigit at hc
      simp [ParseUint.loop, hc]

theorem splitSign_cons (c : Char) (ds : List Char) :
    splitSign (c :: ds) =
      if c = '-' then (true, ds) else if c = '+' then (false, ds) else (false, c :: ds) := by
  by_cases h1 : c = '-'
  · subst h1; rfl
  · by_cases h2 : c = '+'
    · subst h2; rfl
    · rw [if_neg h1, if_neg h2]
      unfold splitSign
      split
      · simp_all
      · simp_all
      · rfl

theorem ParseInt_eq (s : List Char) (hs : s ≠ []) :
    ParseInt s =
      match ParseUint (splitSign s).2 with
      | (_, some .ErrSyntax) => (0, some .ErrSyntax)
      | (un, _) =>
        if (splitSign s).1 = false ∧ un ≥ 2 ^ 63 then (2 ^ 63 - 1, some .ErrRange)
        else if (splitSign s).1 = true ∧ un > 2 ^ 63 then (-(2 ^ 63), some .ErrRange)
        else (if (splitSign s).1 = true then -(un : Int) else (un : Int), none) := by
  cases s with
  | nil => exact absurd rfl hs
  | cons c ds =>
    rw [splitSign_cons]
    by_cases h1 : c = '-'
    · subst h1
      simp [ParseInt]
    · by_cases h2 : c = '+'
      · subst h2
        simp [ParseInt]
      · simp [ParseInt, h1, h2]

theorem Atoi_valid (text : String) (v : Int) (h : ValidInteger text v) :
    Atoi text = (v, none) := by
  obtain ⟨hp, hlo, hhi⟩ := h
  unfold parsedInteger? at hp
  split at hp
  · rename_i hc
    obtain ⟨hne, hd⟩ := hc
    have hs : text.data ≠ [] := by
      intro h0
      rw [h0] at hne
      exact hne rfl
    have hv : v = if (splitSign text.data).1 then
        -(digitsValueFrom 0 (splitSign text.data).2 : Int)
        else (digitsValueFrom 0 (splitSign text.data).2 : Int) := by
      simpa using hp.symm
    have hu : ParseUint (splitSign text.data).2 =
        (digitsValueFrom 0 (splitSign text.data).2, none) := by
      unfold ParseUint
      rw [if_neg hne]
      apply ParseUint.loop_digits _ _ hd
      cases hb : (splitSign text.data).1 <;> rw [hb] at hv <;> simp at hv <;> omega
    unfold Atoi
    rw [ParseInt_eq _ hs, hu]
    cases hb : (splitSign text.data).1 <;> rw [hb] at hv <;> simp at hv
    · have h1 : ¬ digitsValueFrom 0 (splitSign text.data).2 ≥ 2 ^ 63 := by omega
      simp [hv]
      omega
    · have h1 : ¬ digitsValueFrom 0 (splitSign text.data).2 > 2 ^ 63 := by omega
      simp [hv]
      omega
  · exact absurd hp (by simp)

theorem Atoi_not_integer (text : String) (hp : parsedInteger? text = none) :
    Atoi text =
      if digitsValueFrom 0 (leadingDigits (splitSign text.data).2) ≤ 2 ^ 64 - 1 then
        (0, some .ErrSyntax)
      else (if (splitSign text.data).1 then -(2 ^ 63) else 2 ^ 63 - 1, some .ErrRange) := by
  unfold Atoi
  by_cases hs : text.data = []
  · simp [ParseInt, hs, splitSign, leadingDigits, digitsValueFrom]
  · rw [ParseInt_eq _ hs]
    by_cases hne : (splitSign text.data).2 = []
    · simp [ParseUint, hne, leadingDigits, digitsValueFrom]
    · have hbad : ∃ c ∈ (splitSign text.data).2, ¬ IsDigit c := by
        by_contra hall
        push_neg at hall
        have : parsedInteger? text ≠ none := by
          unfold parsedInteger?
          rw [if_pos ⟨hne, hall⟩]
          simp
        exact this hp
      have hu := ParseUint.loop_bad (splitSign text.data).2 0 (by norm_num) hbad
      unfold ParseUint
      rw [if_neg hne, hu]
      by_cases hv : digitsValueFrom 0 (leadingDigits (splitSign text.data).2) ≤ 2 ^ 64 - 1
      · simp only [hv, if_true]
      · simp only [hv, if_false]
        cases hb : (splitSign text.data).1 <;> simp

theorem ParseUint.loop_overflow (ds : List Char) (n : Nat) (hd : ∀ c ∈ ds, IsDigit c)
    (hn : n ≤ 2 ^ 64 - 1) (hv : digitsValueFrom n ds > 2 ^ 64 - 1) :
    ParseUint.loop ds n = (2 ^ 64 - 1, some .ErrRange) := by
  induction ds generalizing n with
  | nil =>
    simp only [digitsValueFrom, List.foldl_nil] at hv
    omega
  | cons c rest ih =>
    have hc : IsDigit c := hd c (List.mem_cons_self _ _)
    have hr : ∀ c ∈ rest, IsDigit c := fun x hx => hd x (List.mem_cons_of_mem _ hx)
    have hstep : digitsValueFrom n (c :: rest) =
        digitsValueFrom (n * 10 + (c.toNat - 48)) rest := by
      simp [digitsValueFrom]
    rw [hstep] at hv
    unfold IsDigit at hc
    by_cases h1 : n ≥ (2 ^ 64 - 1) / 10 + 1
    · simp only [ParseUint.loop, hc, and_self, if_true, h1]
    · by_cases h2 : n * 10 + (c.toNat - 48) > 2 ^ 64 - 1
      · simp only [ParseUint.loop, hc, and_self, if_true, h1, h2, if_false]
      · simp only [ParseUint.loop, hc, and_self, if_true, h1, h2, if_false]
        exact ih _ hr (by omega) hv

theorem Atoi_out_of_range (text : String) (v : Int) (hp : parsedInteger? text = some v)
    (hout : v < -(2 ^ 63) ∨ 2 ^ 63 - 1 < v) :
    Atoi text = (if v < 0 then -(2 ^ 63) else 2 ^ 63 - 1, some .ErrRange) := by
  unfold parsedInteger? at hp
  split at hp
  · rename_i hc
    obtain ⟨hne, hd⟩ := hc
    have hs : text.data ≠ [] := by
      intro h0
      rw [h0] at hne
      exact hne rfl
    have hv : v = if (splitSign text.data).1 then
        -(digitsValueFrom 0 (splitSign text.data).2 : Int)
        else (digitsValueFrom 0 (splitSign text.data).2 : Int) := by
      simpa using hp.symm
    unfold Atoi
    rw [ParseInt_eq _ hs]
    by_cases hbig : digitsValueFrom 0 (splitSign text.data).2 ≤ 2 ^ 64 - 1
    · have hu : ParseUint (splitSign text.data).2 =
          (digitsValueFrom 0 (splitSign text.data).2, none) := by
        unfold ParseUint
        rw [if_neg hne]
        exact ParseUint.loop_digits _ _ hd hbig
      rw [hu]
      cases hb : (splitSign text.data).1 <;> rw [hb] at hv <;> simp at hv
      · have h1 : digitsValueFrom 0 (splitSign text.data).2 ≥ 2 ^ 63 := by omega
        have h2 : ¬ v < 0 := by omega
        simp [h2]
        omega
      · have h1 : digitsValueFrom 0 (splitSign text.data).2 > 2 ^ 63 := by omega
        have h2 : v < 0 := by omega
        simp [h2]
        omega
    · have hu : ParseUint (splitSign text.data).2 = (2 ^ 64 - 1, some .ErrRange) := by
        unfold ParseUint
        rw [if_neg hne]
        exact ParseUint.loop_overflow _ _ hd (by norm_num) (by omega)
      rw [hu]
      cases hb : (splitSign text.data).1 <;> rw [hb] at hv <;> simp at hv
      · have h2 : ¬ v < 0 := by omega
        simp [h2]
      · have h2 : v < 0 := by omega
        simp [h2]
  · exact absurd hp (by simp)

/-- C10, as the code has it: no parse error is surfaced (both numbers are
total functions of the environment). The project number is the parsed
integer when the text is a valid integer (an optional sign and one or more
decimal digits, within the 64-bit range), and the nearest 64-bit bound when
such digits are out of range; for every other text, the absent and the empty
one included, it is zero, unless the digits before the first bad character
already exceed 2^64 - 1, and then it is the 64-bit bound of the sign. The
view number is one when the text is absent or empty, and follows the same
rule as the project number for every non-empty text: in particular it is
zero, not one, for a non-empty text that is not a valid integer and whose
leading digits do not overflow. -/
theorem numeric_settings_spec (environ : Environ) :
    (∀ v, ValidInteger (Getenv environ "PROJECT_NUMBER") v →
        main.projectNumber environ = v) ∧
      (∀ v, parsedInteger? (Getenv environ "PROJECT_NUMBER") = some v →
        (v < -(2 ^ 63) ∨ 2 ^ 63 - 1 < v) →
        main.projectNumber environ = if v < 0 then -(2 ^ 63) else 2 ^ 63 - 1) ∧
      (parsedInteger? (Getenv environ "PROJECT_NUMBER") = none →
        main.projectNumber environ =
          if digitsValueFrom 0
              (leadingDigits (splitSign (Getenv environ "PROJECT_NUMBER").data).2) ≤
              2 ^ 64 - 1 then 0
          else if (splitSign (Getenv environ "PROJECT_NUMBER").data).1 then -(2 ^ 63)
          else 2 ^ 63 - 1) ∧
      (Getenv environ "PROJECT_NUMBER" = "" → main.projectNumber environ = 0) ∧
      (∀ v, ValidInteger (Getenv environ "PROJECT_VIEW_NUMBER") v →
        main.projectViewNumber environ = v) ∧
      (∀ v, parsedInteger? (Getenv environ "PROJECT_VIEW_NUMBER") = some v →
        (v < -(2 ^ 63) ∨ 2 ^ 63 - 1 < v) →
        main.projectViewNumber environ = if v < 0 then -(2 ^ 63) else 2 ^ 63 - 1) ∧
      (Getenv environ "PROJECT_VIEW_NUMBER" = "" → main.projectViewNumber environ = 1) ∧
      (Getenv environ "PROJECT_VIEW_NUMBER" ≠ "" →
        parsedInteger? (Getenv environ "PROJECT_VIEW_NUMBER") = none →
        main.projectViewNumber environ =
          if digitsValueFrom 0
              (leadingDigits (splitSign (Getenv environ "PROJECT_VIEW_NUMBER").data).2) ≤
              2 ^ 64 - 1 then 0
          else if (splitSign (Getenv environ "PROJECT_VIEW_NUMBER").data).1 then -(2 ^ 63)
          else 2 ^ 63 - 1) := by
  have hview : Getenv environ "PROJECT_VIEW_NUMBER" ≠ "" →
      getEnvWithDefault environ "PROJECT_VIEW_NUMBER" "1" =
        Getenv environ "PROJECT_VIEW_NUMBER" := by
    intro h
    simp [getEnvWithDefault, h]
  have hnonempty : ∀ text v, parsedInteger? text = some v → text ≠ "" := by
    intro text v hp h0
    subst h0
    have hnone : parsedInteger? "" = none := by decide
    rw [hnone] at hp
    exact absurd hp (by simp)
  have hbad : ∀ text, parsedInteger? text = none →
      (Atoi text).1 =
        if digitsValueFrom 0 (leadingDigits (splitSign text.data).2) ≤ 2 ^ 64 - 1 then 0
        else if (splitSign text.data).1 then -(2 ^ 63) else 2 ^ 63 - 1 := by
    intro text hp
    rw [Atoi_not_integer text hp]
    split <;> rfl
  refine ⟨?_, ?_, ?_, ?_, ?_, ?_, ?_, ?_⟩
  · intro v hv
    simp [main.projectNumber, Atoi_valid _ v hv]
  · intro v hp hout
    simp [main.projectNumber, Atoi_out_of_range _ v hp hout]
  · intro hp
    rw [main.projectNumber, hbad _ hp]
  · intro h0
    rw [main.projectNumber, h0]
    decide
  · intro v hv
    rw [main.projectViewNumber, hview (hnonempty _ v hv.1)]
    simp [Atoi_valid _ v hv]
  · intro v hp hout
    rw [main.projectViewNumber, hview (hnonempty _ v hp)]
    simp [Atoi_out_of_range _ v hp hout]
  · intro h0
    have : getEnvWithDefault environ "PROJECT_VIEW_NUMBER" "1" = "1" := by
      simp [getEnvWithDefault, h0]
    rw [main.projectViewNumber, this]
    decide
  · intro hne hp
    rw [main.projectViewNumber, hview hne, hbad _ hp]

/-- Witness of C10: project number "-12"; view number
"this-is-not-a-number-at-all", which gives zero; and a project number whose
leading digits overflow before its bad character, which gives the upper
bound. -/
theorem numeric_settings_witness :
    main.projectNumber (fun key =>
        if key = "PROJECT_NUMBER" then some "-12"
        else if key = "PROJECT_VIEW_NUMBER" then some "this-is-not-a-number-at-all"
        else none) = -12 ∧
      main.projectViewNumber (fun key =>
        if key = "PROJECT_NUMBER" then some "-12"
        else if key = "PROJECT_VIEW_NUMBER" then some "this-is-not-a-number-at-all"
        else none) = 0 ∧
      main.projectNumber (fun key =>
        if key = "PROJECT_NUMBER" then some "99999999999999999999x" else none) =
          9223372036854775807 :=
  ⟨(numeric_settings_spec (fun key =>
        if key = "PROJECT_NUMBER" then some "-12"
        else if key = "PROJECT_VIEW_NUMBER" then some "this-is-not-a-number-at-all"
        else none)).1 (-12) (by decide),
    ((numeric_settings_spec (fun key =>
        if key = "PROJECT_NUMBER" then some "-12"
        else if key = "PROJECT_VIEW_NUMBER" then some "this-is-not-a-number-at-all"
        else none)).2.2.2.2.2.2.2 (by decide) (by decide)).trans (by decide),
    ((numeric_settings_spec (fun key =>
        if key = "PROJECT_NUMBER" then some "99999999999999999999x" else none)).2.2.1
      (by decide)).trans (by decide)⟩

/-- C10 as stated fails: with the view-number setting "abc", which is not a
valid integer, the configured view number is zero, not one; with the
project-number setting "9223372036854775808" the parse fails on range and
the configured project number is 9223372036854775807, neither the parsed
integer nor zero; and with the project-number setting
"99999999999999999999x", which is not an integer, the leading digits
overflow before the bad character and the configured project number is
9223372036854775807, not zero. -/
theorem numeric_settings_counterexample :
    parsedInteger? "abc" = none ∧
      main.projectViewNumber
        (fun key => if key = "PROJECT_VIEW_NUMBER" then some "abc" else none) = 0 ∧
      main.projectViewNumber
        (fun key => if key = "PROJECT_VIEW_NUMBER" then some "abc" else none) ≠ 1 ∧
      parsedInteger? "9223372036854775808" = some 9223372036854775808 ∧
      (Atoi "9223372036854775808").2 = some NumError.ErrRange ∧
      main.projectNumber
        (fun key => if key = "PROJECT_NUMBER" then some "9223372036854775808" else none) =
          9223372036854775807 ∧
      parsedInteger? "99999999999999999999x" = none ∧
      (Atoi "99999999999999999999x").2 = some NumError.ErrRange ∧
      main.projectNumber
        (fun key => if key = "PROJECT_NUMBER" then some "99999999999999999999x" else none) =
          9223372036854775807 := by
  refine ⟨by decide, by decide, by decide, by decide, by decide, by decide, by decide,
    by decide, by decide⟩

end Notifier
